import Mathlib

/-
Verification of the CSV/XML catalog generator
(src/calibre/library/catalogs/csv_xml.py, class CSV_XML, method `run`).

The per-field values a record can hold, as the Python code sees them.
List values in this data model hold strings (the lists the code iterates
— authors, tags, formats, languages as produced by the database layer —
are lists of strings).  A datetime value is carried together with its
ISO-8601 local-time rendering (the external `isoformat(value, as_utc=False)`
collaborator returns exactly this payload).
-/

inductive Value where
  | vnone : Value
  | vstr (s : String) : Value
  | vint (n : Int) : Value
  | vrat (q : Rat) : Value
  | vlist (xs : List String) : Value
  | vdate (iso : String) : Value
  | vbool (b : Bool) : Value
deriving DecidableEq

/-- Python truthiness (`if not val`, `and item`). -/
def Value.truthy : Value → Bool
  | .vnone => false
  | .vstr s => !s.isEmpty
  | .vint n => n != 0
  | .vrat q => q != 0
  | .vlist xs => !xs.isEmpty
  | .vdate _ => true
  | .vbool b => b

-- Decimal digit rendering, fuel-based so that the kernel can evaluate it.

def digitChar (n : Nat) : Char := Char.ofNat (48 + n)

def natToStrAux : Nat → Nat → List Char
  | 0, _ => []
  | fuel + 1, n => if n < 10 then [digitChar n] else natToStrAux fuel (n / 10) ++ [digitChar (n % 10)]

/-- Decimal rendering of a natural number (Python `str` of a nonnegative int). -/
def natToStr (n : Nat) : String := String.mk (natToStrAux (n + 1) n)

/-- Python `str` of an int. -/
def intToStr (i : Int) : String := if i < 0 then "-" ++ natToStr i.natAbs else natToStr i.natAbs

def fracDigitsAux : Nat → Nat → Nat → List Char
  | 0, _, _ => []
  | fuel + 1, n, d => if n = 0 then [] else digitChar (n * 10 / d) :: fracDigitsAux fuel (n * 10 % d) d

/-- Python `str` of a float, modelled on exact rationals: sign, integer part,
decimal point, fractional digits (up to 20 digits, enough for every value a
double can carry through this code path). -/
def ratPyStr (q : Rat) : String :=
  let sign := if q.num < 0 then "-" else ""
  let n := q.num.natAbs
  let ds := fracDigitsAux 20 (n % q.den) q.den
  sign ++ natToStr (n / q.den) ++ "." ++ (if ds.isEmpty then "0" else String.mk ds)

def pyReprEscape (q : Char) (c : Char) : List Char :=
  if c = '\\' then ['\\', '\\']
  else if c = q then ['\\', q]
  else if c = '\n' then ['\\', 'n']
  else if c = '\r' then ['\\', 'r']
  else if c = '\t' then ['\\', 't']
  else [c]

def joinWith (sep : List Char) : List (List Char) → List Char
  | [] => []
  | [x] => x
  | x :: y :: rest => x ++ sep ++ joinWith sep (y :: rest)

/-- Python `sep.join(strings)`. -/
def joinStrs (sep : String) (l : List String) : String :=
  String.mk (joinWith sep.data (l.map String.data))

/-- Python `repr` of a string (as used by `str` of a list of strings): quote
with a single quote — with a double quote when the string contains a single
quote but no double quote — escaping backslashes, the quote character and
common control characters. -/
def pyReprStr (s : String) : String :=
  let q := if s.data.contains '\'' && !(s.data.contains '"') then '"' else '\''
  String.mk (q :: (s.data.map (pyReprEscape q)).flatten ++ [q])

/-- Python `str(value)`, as applied by the code to whatever is left in `item`
when it builds the CSV cell, and to non-string values in the XML writer. -/
def Value.pyStr : Value → String
  | .vnone => "None"
  | .vstr s => s
  | .vint n => intToStr n
  | .vrat q => ratPyStr q
  | .vlist xs => "[" ++ joinStrs ", " (xs.map pyReprStr) ++ "]"
  | .vdate s => s
  | .vbool b => if b then "True" else "False"

/-
Python's format specifier `.2g`, as used by `f'{item/2:.2g}'` (CSV rating
branch, line 156) and `f'{val/2:.2g}'` (XML rating branch, line 200).
The value being formatted is the exact rational num/den (ratings are stored
as integers, so `item/2` is exactly representable).  `%g` with precision 2:
round to two significant digits, use fixed form when the decimal
exponent e satisfies -4 <= e < 2 and scientific form otherwise, and always
strip trailing zeros and a trailing decimal point.
-/

def digitCountAux : Nat → Nat → Nat
  | 0, _ => 0
  | fuel + 1, n => if n < 10 then 1 else 1 + digitCountAux fuel (n / 10)

def digitCount (n : Nat) : Nat := digitCountAux (n + 1) n

/-- Round num/den to the nearest integer, ties to even (the rounding used
when Python formats a float). -/
def roundHE (num den : Nat) : Nat :=
  let n := num / den
  let r := num % den
  if 2 * r < den then n
  else if den < 2 * r then n + 1
  else if n % 2 = 0 then n else n + 1

/-- Whether num/den >= 10^k. -/
def gePow10 (num den : Nat) (k : Int) : Bool :=
  if 0 ≤ k then decide (10 ^ k.toNat * den ≤ num)
  else decide (den ≤ num * 10 ^ (-k).toNat)

/-- The decimal exponent e with 10^e <= num/den < 10^(e+1), for num, den > 0. -/
def expOfPair (num den : Nat) : Int :=
  let c : Int := (digitCount num : Int) - (digitCount den : Int)
  if gePow10 num den c then c else c - 1

/-- The two-digit mantissa of num/den rounded to two significant digits. -/
def mantOfPair (num den : Nat) (e : Int) : Nat :=
  if 1 ≤ e then roundHE num (den * 10 ^ (e - 1).toNat)
  else roundHE (num * 10 ^ (1 - e).toNat) den

/-- Render a two-significant-digit value m * 10^(e-1) (10 <= m <= 99) the way
`%.2g` does, trailing zeros stripped. -/
def renderG2 (m : Nat) (e : Int) : String :=
  let d1 := m / 10
  let d2 := m % 10
  if -4 ≤ e ∧ e < 2 then
    if e = 1 then natToStr m
    else if e = 0 then (if d2 = 0 then natToStr d1 else natToStr d1 ++ "." ++ natToStr d2)
    else "0." ++ String.mk (List.replicate (-(e + 1)).toNat '0')
      ++ (if d2 = 0 then natToStr d1 else natToStr d1 ++ natToStr d2)
  else
    (if d2 = 0 then natToStr d1 else natToStr d1 ++ "." ++ natToStr d2)
      ++ "e" ++ (if 0 ≤ e then "+" else "-")
      ++ (if (if 0 ≤ e then e else -e) < 10 then "0" else "")
      ++ natToStr (if 0 ≤ e then e else -e).toNat

def pyG2Pos (num den : Nat) : String :=
  let e := expOfPair num den
  let m := mantOfPair num den e
  if m = 100 then renderG2 10 (e + 1) else renderG2 m e

/-- Python `format(num/den, '.2g')` for an exact rational num/den (den > 0). -/
def pyG2 (num : Int) (den : Nat) : String :=
  if num = 0 then "0"
  else if num < 0 then "-" ++ pyG2Pos num.natAbs den
  else pyG2Pos num.natAbs den

/-- The division-then-format `f'{item/2:.2g}'` applied to a numeric value;
a TypeError for operands Python cannot divide. -/
def div2G2 : Value → Except String String
  | .vint n => .ok (pyG2 n 2)
  | .vrat q => .ok (pyG2 q.num (q.den * 2))
  | .vbool b => .ok (pyG2 (if b then 1 else 0) 2)
  | _ => .error "TypeError: unsupported operand type for division"

-- CSV quoting (line 166: '"{}"'.format(str(item).replace('"', '""'))).

/-- Python `s.replace('"', '""')`: double every double-quote character. -/
def escQ : List Char → List Char
  | [] => []
  | c :: cs => if c = '"' then '"' :: '"' :: escQ cs else c :: escQ cs

/-- The quoted CSV cell the writer emits for the string `s`. -/
def csvQuote (s : String) : String := String.mk ('"' :: escQ s.data ++ ['"'])

/-- The inverse of quote doubling: replace each doubled double quote by a
single one, scanning left to right (Python `s.replace('""', '"')`). -/
def unescQ : List Char → List Char
  | [] => []
  | [c] => [c]
  | c :: c2 :: cs => if c = '"' ∧ c2 = '"' then '"' :: unescQ cs else c :: unescQ (c2 :: cs)

/-- Strip one leading and one trailing double quote. -/
def stripOuter (cs : List Char) : List Char :=
  match cs with
  | '"' :: rest => if rest.getLast? = some '"' then rest.dropLast else rest
  | _ => cs

/-- Parse one emitted CSV cell back: strip the outer quotes, undouble the
doubled quotes. -/
def parseCell (s : String) : String := String.mk (unescQ (stripOuter s.data))

/-- Split a CSV row on unescaped commas: a comma separates cells only at
even quote depth. -/
def splitCellsAux : List Char → Bool → List Char → List (List Char)
  | [], _, acc => [acc.reverse]
  | c :: cs, inq, acc =>
    if c = '"' then splitCellsAux cs (!inq) (c :: acc)
    else if c = ',' ∧ inq = false then acc.reverse :: splitCellsAux cs false []
    else splitCellsAux cs inq (c :: acc)

def splitCells (s : String) : List (List Char) := splitCellsAux s.data false []

-- The HTML detection heuristic (lines 159-164).

/-- A regex word character (`\w`), restricted to ASCII. -/
def isWordChar (c : Char) : Bool := c.isAlphanum || c = '_'

/-- `re.search(r'<(\w+)( |>)', item)`: the leftmost occurrence of `<`,
followed by at least one word character, followed by a space or `>`;
returns the word run (the regex group 1). -/
def findOpenTag : List Char → Option (List Char)
  | [] => none
  | c :: cs =>
    if c = '<' then
      let run := cs.takeWhile isWordChar
      if run.isEmpty then findOpenTag cs
      else
        match cs.drop run.length with
        | d :: _ => if d = ' ' ∨ d = '>' then some run else findOpenTag cs
        | [] => findOpenTag cs
    else findOpenTag cs

/-- `re.search(rf'</{tag}>$', item)`: the closing tag anchored at the end
(Python `$` also matches just before one final newline). -/
def htmlHeuristic (s : String) : Bool :=
  match findOpenTag s.data with
  | none => false
  | some tag =>
    let pat := '<' :: '/' :: tag ++ ['>']
    pat.isSuffixOf s.data || (pat ++ ['\n']).isSuffixOf s.data

/-- Modelled from the spec: `html2text` (calibre.utils.html2text, an external
collaborator not part of this file) converts HTML markup to plain text; per
the spec's example, `"<p>Hello <b>world</b></p>"` becomes `"Hello world"`.
Modelled as removal of every `<`...`>` tag. -/
def stripTagsAux : List Char → Bool → List Char
  | [], _ => []
  | c :: cs, true => if c = '>' then stripTagsAux cs false else stripTagsAux cs true
  | c :: cs, false => if c = '<' then stripTagsAux cs true else c :: stripTagsAux cs false

def html2textModel (s : String) : String := String.mk (stripTagsAux s.data false)

/-- Modelled from the spec: `authors_to_string` (calibre.ebooks.metadata, an
external collaborator not part of this file) renders an ordered author list
as one display string; per the spec's scenario, `["Jane Doe", "John Roe"]`
becomes `"Jane Doe & John Roe"`. -/
def authorsToString (xs : List String) : String := joinStrs " & " xs

-- Per-field helpers of the run method.

/-- Line 149: `re.sub(r'[^\dX-]', '', item)` — keep only digits, `X`, `-`. -/
def isbnClean (s : String) : String :=
  String.mk (s.data.filter (fun c => c.isDigit || c = 'X' || c = '-'))

/-- Line 153: `item.replace('\r\n', ' ')`. -/
def flattenCRLF : List Char → List Char
  | [] => []
  | '\r' :: '\n' :: cs => ' ' :: flattenCRLF cs
  | c :: cs => c :: flattenCRLF cs

/-- Lines 153-154: collapse CRLF, then LF, to single spaces. -/
def flattenComments (s : String) : String :=
  String.mk ((flattenCRLF s.data).map (fun c => if c = '\n' then ' ' else c))

/-- Python `s.rpartition('.')[2]`: the substring after the last `.`;
the whole string when there is no `.` (lines 63, 141). -/
def afterLastDotL (cs : List Char) : List Char :=
  (cs.reverse.takeWhile (fun c => c ≠ '.')).reverse

def afterLastDotS (s : String) : String := String.mk (afterLastDotL s.data)

/-- Python `s.lower()` (ASCII). -/
def lowerStr (s : String) : String := String.mk (s.data.map Char.toLower)

/-- Python `s.replace(os.sep, '/')` for a one-character separator. -/
def replaceSep (sep : Char) (s : String) : String :=
  String.mk (s.data.map (fun c => if c = sep then '/' else c))

/-- `field.startswith('#')` — the custom-field marker test. -/
def isCustom (f : String) : Bool := f.data.head? == some '#'

/-- Line 188: `field.replace('#', '_')`. -/
def hashToUnderscore (f : String) : String :=
  String.mk (f.data.map (fun c => if c = '#' then '_' else c))

-- Data model: records, field metadata, database accessor.

/-- One catalog entry, a mapping from field name to value (a Python dict;
`entry[field]` raises KeyError when the key is missing). -/
abbrev Record := List (String × Value)

/-- The per-field descriptor from `db.field_metadata.get(x, {})` (line 106):
`.get('datatype')` and `.get('display', {}).get('is_names', False)`. -/
structure FieldMeta where
  datatype : Option String := none
  is_names : Bool := false
deriving DecidableEq, Inhabited

/-- The external database accessor used for custom fields:
`db.get_field(entry['id'], field, index_is_id=True)` (lines 122, 185).
A field with no value yields Python None (`Value.vnone`). -/
structure Db where
  getField : Value → String → Value

/-- Python dict lookup `r[k]`: the value, or a KeyError. -/
def lookupE (r : Record) (k : String) : Except String Value :=
  match r.lookup k with
  | some v => .ok v
  | none => .error ("KeyError: " ++ k)

/-- Effectful map over a list, stopping at the first error (models a Python
loop in which any iteration may raise). -/
def mapME {α β : Type} (f : α → Except String β) : List α → Except String (List β)
  | [] => .ok []
  | a :: l => do
    let b ← f a
    let bs ← mapME f l
    .ok (b :: bs)

/-- Python iteration over a value: a list yields its entries, a string its
characters, anything else raises TypeError. -/
def iterSeq : Value → Except String (List String)
  | .vlist xs => .ok xs
  | .vstr s => .ok (s.data.map (fun c => String.mk [c]))
  | _ => .error "TypeError: not iterable"

-- CSV writer (lines 108-169).

/-- Field resolution, lines 121-133: custom fields go through `db.get_field`
(joining list values with ' & ' when the display hint `is_names` is set,
with ', ' otherwise); `library_name` and `title_sort` are synthesized; every
other field is a direct record lookup. -/
def csvResolve (db : Db) (fm : String → FieldMeta) (lib : String) (r : Record)
    (field : String) : Except String Value :=
  if isCustom field then do
    let idv ← lookupE r "id"
    match db.getField idv field with
    | .vlist xs =>
      .ok (.vstr (joinStrs (if (fm field).is_names then " & " else ", ") xs))
    | v => .ok v
  else if field = "library_name" then .ok (.vstr lib)
  else if field = "title_sort" then lookupE r "sort"
  else lookupE r field

/-- The per-field transform chain of lines 138-156 (the `elif` cascade that
follows the `item is None` check): formats, authors, tags, isbn, datetime,
comments, rating — in exactly the source's order. -/
def csvTransform (fm : String → FieldMeta) (field : String) (item : Value) :
    Except String Value :=
  if field = "formats" then do
    let xs ← iterSeq item
    .ok (.vstr (joinStrs ", " (xs.map (fun f => lowerStr (afterLastDotS f)))))
  else if field = "authors" then do
    let xs ← iterSeq item
    .ok (.vstr (authorsToString xs))
  else if field = "tags" then do
    let xs ← iterSeq item
    .ok (.vstr (joinStrs ", " xs))
  else if field = "isbn" then
    match item with
    | .vstr s => .ok (.vstr (isbnClean s))
    | _ => .error "TypeError: expected string or bytes-like object"
  else if (fm field).datatype = some "datetime" then
    match item with
    | .vdate s => .ok (.vstr s)
    | _ => .error "AttributeError: isoformat expects a datetime value"
  else if field = "comments" then
    match item with
    | .vstr s => .ok (.vstr (flattenComments s))
    | _ => .error "AttributeError: replace expects a string value"
  else if (fm field).datatype = some "rating" ∧ item.truthy = true then do
    let s ← div2G2 item
    .ok (.vstr s)
  else .ok item

/-- Lines 158-164: a string value is converted with html2text exactly when
the tag heuristic fires; non-string values pass through. -/
def htmlPass : Value → Value
  | .vstr s => if htmlHeuristic s then .vstr (html2textModel s) else .vstr s
  | v => v

/-- Lines 135-166: the final quoted cell for a resolved value — `""` for
None (line 136), otherwise transform, html pass, stringify, quote. -/
def csvCellOfValue (fm : String → FieldMeta) (field : String) (item : Value) :
    Except String String :=
  match item with
  | .vnone => .ok (String.mk ['"', '"'])
  | v => do
    let t ← csvTransform fm field v
    .ok (csvQuote (htmlPass t).pyStr)

def csvField (db : Db) (fm : String → FieldMeta) (lib : String) (r : Record)
    (field : String) : Except String String := do
  let item ← csvResolve db fm lib r field
  csvCellOfValue fm field item

/-- One record's row cells, in field-list order (lines 119-166). -/
def csvCells (db : Db) (fm : String → FieldMeta) (lib : String)
    (fields : List String) (r : Record) : Except String (List String) :=
  mapME (csvField db fm lib r) fields

/-- `','.join(outstr)` (line 168). -/
def rowOfCells (cells : List String) : String :=
  String.mk (joinWith [','] (cells.map String.data))

/-- The outcome of one run: the text that reached the destination file
(none when the file was never opened) and the exception, if one was
raised. -/
structure RunResult where
  written : Option String
  err : Option String
deriving DecidableEq

/-- The CSV record loop (lines 118-168): each fully-built row is written
before the next record is processed, so an exception leaves every
previously written row (and the header) in the file. -/
def csvLoop (db : Db) (fm : String → FieldMeta) (lib : String)
    (fields : List String) : List Record → String → RunResult
  | [], acc => ⟨some acc, none⟩
  | r :: rs, acc =>
    match csvCells db fm lib fields r with
    | .ok cells => csvLoop db fm lib fields rs (acc ++ rowOfCells cells ++ "\n")
    | .error e => ⟨some acc, some e⟩

/-- Lines 112-115: the BOM, then the unquoted header line. -/
def csvHeader (fields : List String) : String :=
  String.mk ('\uFEFF' :: joinWith [','] (fields.map String.data)) ++ "\n"

/-- The whole CSV branch (lines 108-169). -/
def csvRun (db : Db) (fm : String → FieldMeta) (lib : String)
    (fields : List String) (data : List Record) : RunResult :=
  csvLoop db fm lib fields data (csvHeader fields)

-- XML writer (lines 171-251), over an element tree as lxml's E builder
-- produces it.

inductive XmlNode where
  | elem (tag : String) (attrs : List (String × String)) (children : List XmlNode) : XmlNode
  | text (s : String) : XmlNode

/-- The tag of a top-level node (empty for a text node). -/
def XmlNode.topTag : XmlNode → String
  | .elem t _ _ => t
  | .text _ => ""

/-- lxml's builder accepts only strings as text/attribute content; anything
else raises TypeError. -/
def asStr : Value → Except String String
  | .vstr s => .ok s
  | _ => .error "TypeError: bad argument type"

/-- Lines 186-187: `if not isinstance(val, str): val = str(val)`. -/
def valToText : Value → String
  | .vstr s => s
  | v => v.pyStr

/-- Lines 183-189: one element per custom field of the field list, in field
list order; tag `field.replace('#', '_')`, text the stringified
`db.get_field` value. -/
def xmlCustoms (db : Db) (fields : List String) (r : Record) :
    Except String (List XmlNode) :=
  mapME (fun field => do
      let idv ← lookupE r "id"
      .ok (XmlNode.elem (hashToUnderscore field) []
        [XmlNode.text (valToText (db.getField idv field))]))
    (fields.filter (fun f => isCustom f))

/-- The fixed scalar tuple of line 191-192. -/
def scalarNames : List String :=
  ["id", "uuid", "publisher", "rating", "size", "isbn", "ondevice", "identifiers"]

/-- Lines 191-203: one same-named element per fixed scalar field that is in
the field list and truthy; non-string values are stringified, a truthy
rating-datatype value is rescaled with `.2g` first. -/
def xmlScalarText (fm : String → FieldMeta) (f : String) : Value → Except String String
  | .vstr s => .ok s
  | v =>
    if (fm f).datatype = some "rating" then div2G2 v
    else .ok v.pyStr

def xmlScalarOne (fm : String → FieldMeta) (fields : List String) (r : Record)
    (f : String) : Except String (List XmlNode) :=
  if f ∈ fields then do
    let val ← lookupE r f
    if val.truthy = true then do
      let s ← xmlScalarText fm f val
      .ok [XmlNode.elem f [] [XmlNode.text s]]
    else .ok []
  else .ok []

def joinME (x : Except String (List (List XmlNode))) : Except String (List XmlNode) := do
  let ls ← x
  .ok ls.flatten

def xmlScalars (fm : String → FieldMeta) (fields : List String) (r : Record) :
    Except String (List XmlNode) :=
  joinME (mapME (xmlScalarOne fm fields r) scalarNames)

/-- Lines 205-207: `E.title(r['title'], sort=r['sort'])`, emitted whenever
`title` is in the field list. -/
def xmlTitle (fields : List String) (r : Record) : Except String (List XmlNode) :=
  if "title" ∈ fields then do
    let tv ← lookupE r "title"
    let ts ← asStr tv
    let sv ← lookupE r "sort"
    let ss ← asStr sv
    .ok [XmlNode.elem "title" [("sort", ss)] [XmlNode.text ts]]
  else .ok []

/-- Lines 209-213: the authors container with a `sort` attribute and one
child per author, emitted whenever `authors` is in the field list. -/
def xmlAuthors (fields : List String) (r : Record) : Except String (List XmlNode) :=
  if "authors" ∈ fields then do
    let sv ← lookupE r "author_sort"
    let ss ← asStr sv
    let av ← lookupE r "authors"
    let xs ← iterSeq av
    .ok [XmlNode.elem "authors" [("sort", ss)]
      (xs.map (fun au => XmlNode.elem "author" [] [XmlNode.text au]))]
  else .ok []

/-- Lines 215-217: `timestamp` and `pubdate` as ISO local time, emitted
whenever in the field list. -/
def xmlDateOne (fields : List String) (r : Record) (f : String) :
    Except String (List XmlNode) :=
  if f ∈ fields then do
    let v ← lookupE r f
    match v with
    | .vdate s => Except.ok [XmlNode.elem f [] [XmlNode.text s]]
    | _ => Except.error "AttributeError: isoformat expects a datetime value"
  else .ok []

def xmlDates (fields : List String) (r : Record) : Except String (List XmlNode) :=
  joinME (mapME (xmlDateOne fields r) ["timestamp", "pubdate"])

/-- Lines 219-223: the tags container, only when `tags` is in the field list
and the value is truthy. -/
def xmlTags (fields : List String) (r : Record) : Except String (List XmlNode) :=
  if "tags" ∈ fields then do
    let v ← lookupE r "tags"
    if v.truthy = true then do
      let xs ← iterSeq v
      .ok [XmlNode.elem "tags" []
        (xs.map (fun t => XmlNode.elem "tag" [] [XmlNode.text t]))]
    else .ok []
  else .ok []

/-- Lines 225-226: comments, raw (not flattened), only when in the field
list and truthy. -/
def xmlComments (fields : List String) (r : Record) : Except String (List XmlNode) :=
  if "comments" ∈ fields then do
    let v ← lookupE r "comments"
    if v.truthy = true then do
      let s ← asStr v
      .ok [XmlNode.elem "comments" [] [XmlNode.text s]]
    else .ok []
  else .ok []

/-- Lines 228-230: the series element with an `index` attribute
`str(r['series_index'])`, only when in the field list and truthy. -/
def xmlSeries (fields : List String) (r : Record) : Except String (List XmlNode) :=
  if "series" ∈ fields then do
    let v ← lookupE r "series"
    if v.truthy = true then do
      let s ← asStr v
      let si ← lookupE r "series_index"
      .ok [XmlNode.elem "series" [("index", si.pyStr)] [XmlNode.text s]]
    else .ok []
  else .ok []

/-- Lines 232-233: the languages element with the raw value, only when in
the field list and truthy. -/
def xmlLanguages (fields : List String) (r : Record) : Except String (List XmlNode) :=
  if "languages" ∈ fields then do
    let v ← lookupE r "languages"
    if v.truthy = true then do
      let s ← asStr v
      .ok [XmlNode.elem "languages" [] [XmlNode.text s]]
    else .ok []
  else .ok []

/-- Lines 235-236: the cover path with OS separators replaced by `/`, only
when in the field list and truthy. -/
def xmlCover (sep : Char) (fields : List String) (r : Record) :
    Except String (List XmlNode) :=
  if "cover" ∈ fields then do
    let v ← lookupE r "cover"
    if v.truthy = true then do
      let s ← asStr v
      .ok [XmlNode.elem "cover" [] [XmlNode.text (replaceSep sep s)]]
    else .ok []
  else .ok []

/-- Lines 238-242: the formats container with one child per full path
(separators normalized, extension untouched), only when in the field list
and truthy. -/
def xmlFormats (sep : Char) (fields : List String) (r : Record) :
    Except String (List XmlNode) :=
  if "formats" ∈ fields then do
    let v ← lookupE r "formats"
    if v.truthy = true then do
      let xs ← iterSeq v
      .ok [XmlNode.elem "formats" []
        (xs.map (fun f => XmlNode.elem "format" [] [XmlNode.text (replaceSep sep f)]))]
    else .ok []
  else .ok []

/-- Lines 244-245: the library_name element, emitted whenever in the field
list. -/
def xmlLibraryName (lib : String) (fields : List String) :
    Except String (List XmlNode) :=
  if "library_name" ∈ fields then .ok [XmlNode.elem "library_name" [] [XmlNode.text lib]]
  else .ok []

/-- Lines 183-245: the children of one record element, in the source's
fixed construction order. -/
def xmlRecordChildren (db : Db) (fm : String → FieldMeta) (lib : String)
    (sep : Char) (fields : List String) (r : Record) :
    Except String (List XmlNode) := do
  let cs ← xmlCustoms db fields r
  let sc ← xmlScalars fm fields r
  let ti ← xmlTitle fields r
  let au ← xmlAuthors fields r
  let dt ← xmlDates fields r
  let tg ← xmlTags fields r
  let cm ← xmlComments fields r
  let se ← xmlSeries fields r
  let lg ← xmlLanguages fields r
  let cv ← xmlCover sep fields r
  let fo ← xmlFormats sep fields r
  let ln ← xmlLibraryName lib fields
  .ok (cs ++ sc ++ ti ++ au ++ dt ++ tg ++ cm ++ se ++ lg ++ cv ++ fo ++ ln)

/-- Lines 179-247: one record element; any exception is re-raised wrapped
with the record's title (formatted with `str`); a missing title makes the
wrapping lookup itself raise. -/
def xmlRecordWrapped (db : Db) (fm : String → FieldMeta) (lib : String)
    (sep : Char) (fields : List String) (r : Record) : Except String XmlNode :=
  match xmlRecordChildren db fm lib sep fields r with
  | .ok ch => .ok (XmlNode.elem "record" [] ch)
  | .error e =>
    match r.lookup "title" with
    | some v => .error ("Failed to convert " ++ valToText v ++ " to XML with error: " ++ e)
    | none => .error "KeyError: title"

/-- Lines 174-177: the root element's optional title attribute
(`getattr(opts, 'catalog_title', None)`, truthiness-tested). -/
def rootAttrs (ct : Option String) : List (String × String) :=
  match ct with
  | some t => if t.isEmpty then [] else [("title", t)]
  | none => []

def renderAttrs (attrs : List (String × String)) : String :=
  String.join (attrs.map (fun a => " " ++ a.1 ++ "=\"" ++ a.2 ++ "\""))

/-- Modelled from the spec: `etree.tostring(..., pretty_print=True)` (lxml,
an external collaborator not part of this file) serializes the tree; the
exact indentation and character escaping of lxml are not observed by any
property here, so the rendering is a plain nested-element dump. -/
def renderNode : XmlNode → String
  | .text s => s
  | .elem t attrs kids =>
    "<" ++ t ++ renderAttrs attrs ++ ">"
      ++ String.join (kids.attach.map (fun k => renderNode k.1))
      ++ "</" ++ t ++ ">"
decreasing_by
  have := List.sizeOf_lt_of_mem k.2
  simp only [XmlNode.elem.sizeOf_spec]
  omega

/-- The serialized document: XML declaration plus the rendered tree
(lines 249-251). -/
def serializeXml (root : XmlNode) : String :=
  "<?xml version=\"1.0\" encoding=\"utf-8\"?>\n" ++ renderNode root ++ "\n"

/-- The whole XML branch (lines 171-251): the full tree is built first; the
destination file is opened and written only when every record converted
without an exception. -/
def xmlRun (sep : Char) (ct : Option String) (db : Db) (fm : String → FieldMeta)
    (lib : String) (fields : List String) (data : List Record) : RunResult :=
  match mapME (xmlRecordWrapped db fm lib sep fields) data with
  | .ok recs => ⟨some (serializeXml (XmlNode.elem "calibredb" (rootAttrs ct) recs)), none⟩
  | .error e => ⟨none, some e⟩

/-- Line 63: `self.fmt = path_to_output.rpartition('.')[2]`. -/
def fmtOf (path : String) : String := afterLastDotS path

/-- The dispatch of `run` (lines 63, 108, 171): `csv` and `xml` each write a
file; any other extension falls through both branches, writing nothing and
raising nothing. -/
def runCatalog (sep : Char) (path : String) (ct : Option String) (db : Db)
    (fm : String → FieldMeta) (lib : String) (fields : List String)
    (data : List Record) : RunResult :=
  if fmtOf path = "csv" then csvRun db fm lib fields data
  else if fmtOf path = "xml" then xmlRun sep ct db fm lib fields data
  else ⟨none, none⟩

-- Basic lemmas about the string helpers.

theorem str_data_append (a b : String) : (a ++ b).data = a.data ++ b.data := by
  cases a; cases b; rfl

theorem str_mk_data (s : String) : String.mk s.data = s := by
  cases s; rfl

theorem escQ_ne_nil (c : Char) (cs : List Char) : escQ (c :: cs) ≠ [] := by
  unfold escQ; split <;> simp

theorem unescQ_escQ : ∀ cs : List Char, unescQ (escQ cs) = cs
  | [] => rfl
  | c :: cs => by
    by_cases h : c = '"'
    · subst h
      show unescQ (escQ ('"' :: cs)) = _
      rw [escQ, if_pos rfl, unescQ, if_pos ⟨rfl, rfl⟩, unescQ_escQ cs]
    · rw [escQ, if_neg h]
      cases hcs : escQ cs with
      | nil =>
        cases cs with
        | nil => simp [unescQ]
        | cons d ds => exact absurd hcs (escQ_ne_nil d ds)
      | cons d ds =>
        rw [unescQ, if_neg (fun hh => h hh.1), ← hcs, unescQ_escQ cs]

/-- C5: for every string value, the CSV writer doubles each internal double
quote and wraps the result in double quotes, and the inverse parse (strip
the outer quotes, undouble the doubled quotes) recovers the original string
exactly. -/
theorem csv_quote_roundtrip (s : String) : parseCell (csvQuote s) = s := by
  unfold parseCell csvQuote stripOuter
  show String.mk (unescQ (match '"' :: (escQ s.data ++ ['"']) with
    | '"' :: rest => if rest.getLast? = some '"' then rest.dropLast else rest
    | cs => cs)) = s
  rw [show (match '"' :: (escQ s.data ++ ['"']) with
    | '"' :: rest => if rest.getLast? = some '"' then rest.dropLast else rest
    | cs => cs) = if (escQ s.data ++ ['"']).getLast? = some '"' then
        (escQ s.data ++ ['"']).dropLast else escQ s.data ++ ['"'] from rfl]
  rw [List.getLast?_concat, if_pos rfl, List.dropLast_concat, unescQ_escQ,
    str_mk_data]

-- Splitting an emitted row on unescaped commas recovers the cells.

theorem splitCellsAux_quote (cs : List Char) (b : Bool) (acc : List Char) :
    splitCellsAux ('"' :: cs) b acc = splitCellsAux cs (!b) ('"' :: acc) := by
  simp [splitCellsAux]

theorem splitCellsAux_comma (cs : List Char) (acc : List Char) :
    splitCellsAux (',' :: cs) false acc = acc.reverse :: splitCellsAux cs false [] := by
  simp [splitCellsAux]

theorem splitCellsAux_other (c : Char) (cs : List Char) (b : Bool) (acc : List Char)
    (h : c ≠ '"') (h2 : ¬(c = ',' ∧ b = false)) :
    splitCellsAux (c :: cs) b acc = splitCellsAux cs b (c :: acc) := by
  simp only [splitCellsAux, if_neg h, if_neg h2]

theorem splitCellsAux_escQ : ∀ (v rest acc : List Char),
    splitCellsAux (escQ v ++ rest) true acc
      = splitCellsAux rest true ((escQ v).reverse ++ acc)
  | [], rest, acc => by simp [escQ]
  | c :: cs, rest, acc => by
    by_cases h : c = '"'
    · subst h
      rw [escQ, if_pos rfl]
      show splitCellsAux ('"' :: ('"' :: (escQ cs ++ rest))) true acc = _
      rw [splitCellsAux_quote, splitCellsAux_quote]
      simp only [Bool.not_not]
      rw [splitCellsAux_escQ cs rest ('"' :: '"' :: acc)]
      simp [List.append_assoc]
    · rw [escQ, if_neg h]
      show splitCellsAux (c :: (escQ cs ++ rest)) true acc = _
      rw [splitCellsAux_other c _ true acc h (by simp)]
      rw [splitCellsAux_escQ cs rest (c :: acc)]
      simp [List.append_assoc]

/-- One quoted cell at the head of the stream is consumed whole: the quote
doubling keeps every internal comma at odd quote depth. -/
theorem splitCellsAux_cell (v rest acc : List Char) :
    splitCellsAux (('"' :: escQ v ++ ['"']) ++ rest) false acc
      = splitCellsAux rest false (('"' :: escQ v ++ ['"']).reverse ++ acc) := by
  show splitCellsAux ('"' :: (escQ v ++ ['"'] ++ rest)) false acc = _
  rw [show escQ v ++ ['"'] ++ rest = escQ v ++ ('"' :: rest) by simp]
  rw [splitCellsAux_quote]
  simp only [Bool.not_false]
  rw [splitCellsAux_escQ v ('"' :: rest) ('"' :: acc)]
  rw [splitCellsAux_quote]
  simp [List.append_assoc]

theorem splitCells_row : ∀ cells : List String,
    (∀ c ∈ cells, ∃ v : String, c = csvQuote v) → cells ≠ [] →
    splitCells (rowOfCells cells) = cells.map String.data
  | [], _, hne => absurd rfl hne
  | c :: rest, h, _ => by
    obtain ⟨v, rfl⟩ := h c (List.mem_cons_self c rest)
    cases rest with
    | nil =>
      show splitCellsAux (String.mk (joinWith [','] [(csvQuote v).data])).data false []
        = [(csvQuote v).data]
      rw [show joinWith [','] [(csvQuote v).data] = (csvQuote v).data from rfl]
      rw [show (String.mk (csvQuote v).data).data = (csvQuote v).data from rfl]
      rw [show (csvQuote v).data = '"' :: escQ v.data ++ ['"'] from rfl]
      rw [show ('"' :: escQ v.data ++ ['"'] : List Char)
          = ('"' :: escQ v.data ++ ['"']) ++ [] by simp]
      rw [splitCellsAux_cell]
      simp [splitCellsAux]
    | cons c2 r2 =>
      show splitCellsAux (String.mk (joinWith [','] ((csvQuote v).data
        :: (c2 :: r2).map String.data))).data false []
        = (csvQuote v).data :: (c2 :: r2).map String.data
      rw [show ((c2 :: r2).map String.data) = c2.data :: r2.map String.data from rfl]
      rw [show joinWith [','] ((csvQuote v).data :: c2.data :: r2.map String.data)
          = (csvQuote v).data ++ [','] ++ joinWith [','] (c2.data :: r2.map String.data)
          from rfl]
      rw [show (String.mk ((csvQuote v).data ++ [','] ++ joinWith [',']
          (c2.data :: r2.map String.data))).data
          = (csvQuote v).data ++ [','] ++ joinWith [','] (c2.data :: r2.map String.data)
          from rfl]
      rw [show (csvQuote v).data = '"' :: escQ v.data ++ ['"'] from rfl]
      rw [List.append_assoc]
      rw [splitCellsAux_cell]
      rw [List.singleton_append]
      rw [splitCellsAux_comma]
      rw [show splitCellsAux (joinWith [','] (c2.data :: List.map String.data r2)) false []
          = splitCells (rowOfCells (c2 :: r2)) from rfl]
      rw [splitCells_row (c2 :: r2) (fun x hx => h x (List.mem_cons_of_mem _ hx))
        (by simp)]
      simp

-- Inversion and congruence lemmas for the effectful helpers.

theorem bindE_ok {α β : Type} (x : Except String α) (f : α → Except String β) (b : β)
    (h : (x >>= f) = .ok b) : ∃ a, x = .ok a ∧ f a = .ok b := by
  cases x with
  | ok a => exact ⟨a, rfl, h⟩
  | error e => simp [Bind.bind, Except.bind] at h

theorem mapME_ok_length {α β : Type} (f : α → Except String β) :
    ∀ (l : List α) (bs : List β), mapME f l = .ok bs → bs.length = l.length
  | [], bs, h => by
    simp only [mapME] at h
    cases h
    rfl
  | a :: l, bs, h => by
    simp only [mapME] at h
    obtain ⟨b, hb, h2⟩ := bindE_ok _ _ _ h
    obtain ⟨bs2, hbs2, h3⟩ := bindE_ok _ _ _ h2
    cases h3
    simp [mapME_ok_length f l bs2 hbs2]

theorem mapME_ok_mem {α β : Type} (f : α → Except String β) :
    ∀ (l : List α) (bs : List β), mapME f l = .ok bs → ∀ b ∈ bs, ∃ a ∈ l, f a = .ok b
  | [], bs, h => by
    simp only [mapME] at h
    cases h
    intro b hb
    cases hb
  | a :: l, bs, h => by
    simp only [mapME] at h
    obtain ⟨b1, hb1, h2⟩ := bindE_ok _ _ _ h
    obtain ⟨bs2, hbs2, h3⟩ := bindE_ok _ _ _ h2
    cases h3
    intro b hb
    rcases List.mem_cons.mp hb with rfl | hb2
    · exact ⟨a, List.mem_cons_self a l, hb1⟩
    · obtain ⟨a2, ha2, hfa2⟩ := mapME_ok_mem f l bs2 hbs2 b hb2
      exact ⟨a2, List.mem_cons_of_mem a ha2, hfa2⟩

theorem mapME_congr {α β : Type} (f g : α → Except String β) :
    ∀ l : List α, (∀ a ∈ l, f a = g a) → mapME f l = mapME g l
  | [], _ => rfl
  | a :: l, h => by
    simp only [mapME]
    rw [h a (List.mem_cons_self a l), mapME_congr f g l
      (fun x hx => h x (List.mem_cons_of_mem a hx))]

-- Newline counting.

theorem not_mem_joinWith (c : Char) (sep : List Char) :
    ∀ parts : List (List Char), c ∉ sep → (∀ p ∈ parts, c ∉ p) →
      c ∉ joinWith sep parts
  | [], _, _ => by simp [joinWith]
  | [x], _, hp => by
    simpa [joinWith] using hp x (List.mem_cons_self x [])
  | x :: y :: rest, hs, hp => by
    simp only [joinWith, List.append_assoc, List.mem_append]
    push_neg
    refine ⟨hp x (List.mem_cons_self x _), hs, ?_⟩
    exact not_mem_joinWith c sep (y :: rest) hs
      (fun p hp2 => hp p (List.mem_cons_of_mem x hp2))

theorem count_nl_row (cells : List String) (h : ∀ s ∈ cells, '\n' ∉ s.data) :
    (rowOfCells cells).data.count '\n' = 0 := by
  apply List.count_eq_zero_of_not_mem
  show '\n' ∉ joinWith [','] (cells.map String.data)
  apply not_mem_joinWith '\n' [','] (cells.map String.data) (by decide)
  intro p hp
  obtain ⟨s, hs, rfl⟩ := List.mem_map.mp hp
  exact h s hs

theorem count_nl_header (fields : List String) (h : ∀ f ∈ fields, '\n' ∉ f.data) :
    (csvHeader fields).data.count '\n' = 1 := by
  unfold csvHeader
  rw [str_data_append]
  rw [List.count_append]
  have h0 : ('﻿' :: joinWith [','] (fields.map String.data)).count '\n' = 0 := by
    apply List.count_eq_zero_of_not_mem
    intro hmem
    rcases List.mem_cons.mp hmem with h1 | h2
    · cases h1
    · exact not_mem_joinWith '\n' [','] (fields.map String.data) (by decide)
        (fun p hp => by
          obtain ⟨s, hs, rfl⟩ := List.mem_map.mp hp
          exact h s hs) h2
  rw [show (String.mk ('﻿' :: joinWith [','] (fields.map String.data))).data
      = '﻿' :: joinWith [','] (fields.map String.data) from rfl, h0]
  rfl

theorem csvLoop_ok (db : Db) (fm : String → FieldMeta) (lib : String)
    (fields : List String) :
    ∀ (data : List Record) (acc : String),
      (∀ r ∈ data, ∃ cells, csvCells db fm lib fields r = .ok cells
        ∧ ∀ c ∈ cells, '\n' ∉ c.data) →
      ∃ out, csvLoop db fm lib fields data acc = ⟨some out, none⟩
        ∧ out.data.count '\n' = acc.data.count '\n' + data.length
  | [], acc, _ => ⟨acc, rfl, by simp [csvLoop]⟩
  | r :: rs, acc, h => by
    obtain ⟨cells, hcells, hnl⟩ := h r (List.mem_cons_self r rs)
    obtain ⟨out, hout, hcount⟩ := csvLoop_ok db fm lib fields rs
      (acc ++ rowOfCells cells ++ "\n")
      (fun x hx => h x (List.mem_cons_of_mem r hx))
    refine ⟨out, ?_, ?_⟩
    · rw [csvLoop, hcells]
      exact hout
    · rw [hcount, str_data_append, str_data_append, List.count_append,
        List.count_append, count_nl_row cells hnl]
      simp [List.length_cons]
      ring

-- Every cell the writer emits is a quoted cell.

theorem csvCell_shape (fm : String → FieldMeta) (field : String) (item : Value)
    (s : String) (h : csvCellOfValue fm field item = .ok s) : ∃ v, s = csvQuote v := by
  cases item with
  | vnone =>
    refine ⟨"", ?_⟩
    simp only [csvCellOfValue] at h
    cases h
    rfl
  | vstr s0 =>
    simp only [csvCellOfValue] at h
    obtain ⟨t, _, h2⟩ := bindE_ok _ _ _ h
    cases h2
    exact ⟨_, rfl⟩
  | vint n =>
    simp only [csvCellOfValue] at h
    obtain ⟨t, _, h2⟩ := bindE_ok _ _ _ h
    cases h2
    exact ⟨_, rfl⟩
  | vrat q =>
    simp only [csvCellOfValue] at h
    obtain ⟨t, _, h2⟩ := bindE_ok _ _ _ h
    cases h2
    exact ⟨_, rfl⟩
  | vlist xs =>
    simp only [csvCellOfValue] at h
    obtain ⟨t, _, h2⟩ := bindE_ok _ _ _ h
    cases h2
    exact ⟨_, rfl⟩
  | vdate d =>
    simp only [csvCellOfValue] at h
    obtain ⟨t, _, h2⟩ := bindE_ok _ _ _ h
    cases h2
    exact ⟨_, rfl⟩
  | vbool b =>
    simp only [csvCellOfValue] at h
    obtain ⟨t, _, h2⟩ := bindE_ok _ _ _ h
    cases h2
    exact ⟨_, rfl⟩

theorem csvField_shape (db : Db) (fm : String → FieldMeta) (lib : String)
    (r : Record) (field : String) (s : String)
    (h : csvField db fm lib r field = .ok s) : ∃ v, s = csvQuote v := by
  simp only [csvField] at h
  obtain ⟨item, _, h2⟩ := bindE_ok _ _ _ h
  exact csvCell_shape fm field item s h2

-- Concrete sample inputs shared by several witnesses and counterexamples.

/-- A database accessor with no custom-field values. -/
def db0 : Db := ⟨fun _ _ => Value.vnone⟩

/-- Field metadata with every descriptor empty (`db.field_metadata.get(x, {})`
for unknown fields). -/
def fm0 : String → FieldMeta := fun _ => {}

/-- Field metadata that declares the `rating` column with the rating
datatype. -/
def fmR : String → FieldMeta := fun f => if f = "rating" then ⟨some "rating", false⟩ else {}

/-- C4 (amended): when every record's row converts without an error and no
field name or emitted cell contains a newline, the CSV output contains
exactly (number of records + 1) newline-terminated lines, and every data
row consists of exactly len(fields) comma-separated quoted cells — parsing
the row on unescaped commas recovers exactly the emitted cells, regardless
of None values or values containing commas.  (A formatted value that itself
contains a newline makes the physical line count exceed records + 1, which
is the corrected part.) -/
theorem csv_shape_amended (db : Db) (fm : String → FieldMeta) (lib : String)
    (fields : List String) (data : List Record)
    (hfne : fields ≠ [])
    (hf : ∀ f ∈ fields, '\n' ∉ f.data)
    (hd : ∀ r ∈ data, ∃ cells, csvCells db fm lib fields r = .ok cells
      ∧ ∀ c ∈ cells, '\n' ∉ c.data) :
    (∃ out, csvRun db fm lib fields data = ⟨some out, none⟩
      ∧ out.data.count '\n' = data.length + 1)
    ∧ (∀ r ∈ data, ∀ cells, csvCells db fm lib fields r = .ok cells →
        cells.length = fields.length
        ∧ splitCells (rowOfCells cells) = cells.map String.data) := by
  constructor
  · obtain ⟨out, hout, hcount⟩ := csvLoop_ok db fm lib fields data (csvHeader fields) hd
    exact ⟨out, hout, by rw [hcount, count_nl_header fields hf]; omega⟩
  · intro r hr cells hcells
    have hlen := mapME_ok_length _ fields cells hcells
    refine ⟨hlen, ?_⟩
    apply splitCells_row
    · intro c hc
      obtain ⟨f, _, hfa⟩ := mapME_ok_mem _ fields cells hcells c hc
      exact csvField_shape db fm lib r f c hfa
    · intro hnil
      apply hfne
      rw [hnil] at hlen
      exact (List.length_eq_zero.mp hlen.symm)

/-- C4 (counterexample): with one record whose title contains a newline, the
CSV output has 3 newline-terminated lines, not records + 1 = 2; the claim's
universal line count fails. -/
theorem csv_line_count_counterexample :
    ((csvRun db0 fm0 "Library" ["title"]
        [[("title", Value.vstr "a\nb")]]).written.getD "").data.count '\n'
      ≠ [[("title", Value.vstr "a\nb")]].length + 1 := by decide

/-- C4 (witness): the amended theorem applied to one concrete record. -/
theorem csv_shape_amended_witness :
    (∃ out, csvRun db0 fm0 "L" ["title"] [[("title", Value.vstr "A")]]
        = ⟨some out, none⟩ ∧ out.data.count '\n' = 1 + 1)
    ∧ (∀ r ∈ [[("title", Value.vstr "A")]], ∀ cells,
        csvCells db0 fm0 "L" ["title"] r = .ok cells →
        cells.length = 1
        ∧ splitCells (rowOfCells cells) = cells.map String.data) := by
  have h := csv_shape_amended db0 fm0 "L" ["title"] [[("title", Value.vstr "A")]]
    (by decide) (by decide)
    (fun r hr => by
      rw [List.mem_singleton] at hr
      subst hr
      exact ⟨[csvQuote "A"], rfl, by decide⟩)
  exact h

/-- C1 (counterexample): for a raw rating of 10 the CSV writer emits the
cell "5" (Python `.2g` drops the trailing zero), not "5.0"; and for a raw
rating of 0 it emits the cell "0", not an empty cell. -/
theorem rating_display_counterexample :
    csvCellOfValue fmR "rating" (Value.vint 10) = Except.ok (csvQuote "5")
    ∧ csvQuote "5" ≠ csvQuote "5.0"
    ∧ csvCellOfValue fmR "rating" (Value.vint 0) = Except.ok (csvQuote "0")
    ∧ csvQuote "0" ≠ String.mk ['"', '"'] :=
  ⟨rfl, by decide, rfl, by decide⟩

/-- C1 (amended): a raw rating of 10 is displayed as "5" (rescaled by two,
formatted with 2 significant digits, trailing zero stripped) in both
writers; a raw rating of None yields an empty CSV cell and no XML element;
a raw rating of 0 yields no XML element but the CSV cell "0". -/
theorem rating_rescale_amended (fm : String → FieldMeta) (r1 r2 r3 : Record)
    (hfm : fm "rating" = ⟨some "rating", false⟩)
    (h1 : r1.lookup "rating" = some (Value.vint 10))
    (h2 : r2.lookup "rating" = some (Value.vint 0))
    (h3 : r3.lookup "rating" = some Value.vnone) :
    csvCellOfValue fm "rating" (Value.vint 10) = .ok (csvQuote "5")
    ∧ csvCellOfValue fm "rating" Value.vnone = .ok (String.mk ['"', '"'])
    ∧ csvCellOfValue fm "rating" (Value.vint 0) = .ok (csvQuote "0")
    ∧ xmlScalars fm ["rating"] r1 = .ok [XmlNode.elem "rating" [] [XmlNode.text "5"]]
    ∧ xmlScalars fm ["rating"] r2 = .ok []
    ∧ xmlScalars fm ["rating"] r3 = .ok [] := by
  refine ⟨?_, rfl, ?_, ?_, ?_, ?_⟩
  · simp [csvCellOfValue, csvTransform, hfm, Value.truthy, div2G2, htmlPass,
      htmlHeuristic, findOpenTag]
    rfl
  · simp [csvCellOfValue, csvTransform, hfm, Value.truthy, htmlPass,
      htmlHeuristic, findOpenTag]
    rfl
  · simp [xmlScalars, joinME, mapME, xmlScalarOne, xmlScalarText, scalarNames,
      lookupE, h1, hfm, Value.truthy, div2G2, Bind.bind, Except.bind]
    rw [show pyG2 10 2 = "5" from by decide]
  · simp [xmlScalars, joinME, mapME, xmlScalarOne, scalarNames, lookupE,
      h2, hfm, Value.truthy, Bind.bind, Except.bind]
  · simp [xmlScalars, joinME, mapME, xmlScalarOne, scalarNames, lookupE,
      h3, hfm, Value.truthy, Bind.bind, Except.bind]

/-- C1 (witness): the amended rating theorem at concrete records. -/
theorem rating_rescale_amended_witness :
    csvCellOfValue fmR "rating" (Value.vint 10) = .ok (csvQuote "5")
    ∧ csvCellOfValue fmR "rating" Value.vnone = .ok (String.mk ['"', '"'])
    ∧ csvCellOfValue fmR "rating" (Value.vint 0) = .ok (csvQuote "0")
    ∧ xmlScalars fmR ["rating"] [("rating", Value.vint 10)]
        = .ok [XmlNode.elem "rating" [] [XmlNode.text "5"]]
    ∧ xmlScalars fmR ["rating"] [("rating", Value.vint 0)] = .ok []
    ∧ xmlScalars fmR ["rating"] [("rating", Value.vnone)] = .ok [] :=
  rating_rescale_amended fmR [("rating", Value.vint 10)] [("rating", Value.vint 0)]
    [("rating", Value.vnone)] (by decide) rfl rfl rfl

/-- C10: the output format is chosen solely from the substring of the
destination path after its final dot; any extension other than csv/xml makes
run a silent no-op: no file written, no error raised. -/
theorem format_dispatch_no_op (sep : Char) (path path2 : String) (ct : Option String)
    (db : Db) (fm : String → FieldMeta) (lib : String) (fields : List String)
    (data : List Record)
    (h1 : fmtOf path ≠ "csv") (h2 : fmtOf path ≠ "xml")
    (h3 : fmtOf path2 = fmtOf path) :
    runCatalog sep path ct db fm lib fields data = ⟨none, none⟩
    ∧ runCatalog sep path2 ct db fm lib fields data
        = runCatalog sep path ct db fm lib fields data := by
  constructor
  · unfold runCatalog
    rw [if_neg h1, if_neg h2]
  · unfold runCatalog
    rw [h3]

/-- C10 (witness): a .txt destination writes nothing and raises nothing, and
the dispatch depends on the path only through its extension. -/
theorem format_dispatch_no_op_witness :
    runCatalog '/' "books.txt" none db0 fm0 "L" ["title"] []
        = ⟨none, none⟩
    ∧ runCatalog '/' "other.txt" none db0 fm0 "L" ["title"] []
        = runCatalog '/' "books.txt" none db0 fm0 "L" ["title"] [] :=
  format_dispatch_no_op '/' "books.txt" "other.txt" none db0 fm0 "L" ["title"] []
    (by decide) (by decide) (by decide)

/-- C7: in the CSV writer, a plain string value (a field with no special
branch and empty metadata) is passed through the HTML-to-text converter
exactly when the heuristic fires: an opening tag token somewhere in the
string and the matching closing tag anchored at the end; "a < b" is left
unmodified, while "<p>Hello <b>world</b></p>" is converted. -/
theorem html_detection_gate (fm : String → FieldMeta) (f : String) (s : String)
    (hn : f ∉ ["formats", "authors", "tags", "isbn", "comments"])
    (hm : fm f = {}) :
    csvCellOfValue fm f (.vstr s)
      = .ok (csvQuote (if htmlHeuristic s then html2textModel s else s))
    ∧ htmlHeuristic "a < b" = false
    ∧ csvCellOfValue fm f (.vstr "a < b") = .ok (csvQuote "a < b")
    ∧ htmlHeuristic "<p>Hello <b>world</b></p>" = true
    ∧ csvCellOfValue fm f (.vstr "<p>Hello <b>world</b></p>")
      = .ok (csvQuote "Hello world") := by
  have hf1 : f ≠ "formats" := fun h => hn (by simp [h])
  have hf2 : f ≠ "authors" := fun h => hn (by simp [h])
  have hf3 : f ≠ "tags" := fun h => hn (by simp [h])
  have hf4 : f ≠ "isbn" := fun h => hn (by simp [h])
  have hf5 : f ≠ "comments" := fun h => hn (by simp [h])
  have base : ∀ t : String, csvCellOfValue fm f (.vstr t)
      = .ok (csvQuote (if htmlHeuristic t then html2textModel t else t)) := by
    intro t
    show (do
      let t2 ← csvTransform fm f (.vstr t)
      Except.ok (csvQuote (htmlPass t2).pyStr)) = _
    rw [show csvTransform fm f (.vstr t) = .ok (.vstr t) by
      unfold csvTransform
      rw [if_neg hf1, if_neg hf2, if_neg hf3, if_neg hf4,
        if_neg (by rw [hm]; simp), if_neg hf5, if_neg (by rw [hm]; simp)]]
    show Except.ok (csvQuote (htmlPass (.vstr t)).pyStr) = _
    rw [show htmlPass (.vstr t)
        = if htmlHeuristic t = true then Value.vstr (html2textModel t) else Value.vstr t
        from rfl]
    by_cases hh : htmlHeuristic t = true
    · rw [if_pos hh, if_pos hh]
      rfl
    · rw [if_neg hh, if_neg hh]
      rfl
  refine ⟨base s, by decide, ?_, by decide, ?_⟩
  · rw [base "a < b", show htmlHeuristic "a < b" = false from by decide]
    rfl
  · rw [base "<p>Hello <b>world</b></p>",
      show htmlHeuristic "<p>Hello <b>world</b></p>" = true from by decide]
    rw [show html2textModel "<p>Hello <b>world</b></p>" = "Hello world" from by decide]
    rfl

/-- C7 (witness): the gate theorem at a concrete field and string. -/
theorem html_detection_gate_witness :
    csvCellOfValue fm0 "title" (.vstr "<p>A</p>")
      = .ok (csvQuote (if htmlHeuristic "<p>A</p>"
          then html2textModel "<p>A</p>" else "<p>A</p>"))
    ∧ htmlHeuristic "a < b" = false
    ∧ csvCellOfValue fm0 "title" (.vstr "a < b") = .ok (csvQuote "a < b")
    ∧ htmlHeuristic "<p>Hello <b>world</b></p>" = true
    ∧ csvCellOfValue fm0 "title" (.vstr "<p>Hello <b>world</b></p>")
      = .ok (csvQuote "Hello world") :=
  html_detection_gate fm0 "title" "<p>A</p>" (by decide) rfl

-- No `<` can appear in a lowercased extension of a `<`-free path, so the
-- HTML pass never fires on the formats cell.

theorem toLower_eq_angle (c : Char) (h : c.toLower = '<') : c = '<' := by
  unfold Char.toLower at h
  simp only [] at h
  by_cases hr : c.toNat ≥ 65 ∧ c.toNat ≤ 90
  · rw [if_pos hr] at h
    have hv : (c.toNat + 32).isValidChar := by
      left
      omega
    have h2 := congrArg Char.toNat h
    rw [show Char.ofNat (c.toNat + 32) = Char.ofNatAux (c.toNat + 32) hv
      from dif_pos hv] at h2
    rw [show (Char.ofNatAux (c.toNat + 32) hv).toNat = c.toNat + 32 from rfl] at h2
    have : ('<').toNat = 60 := by decide
    omega
  · rwa [if_neg hr] at h

theorem angle_not_in_ext (x : String) (h : '<' ∉ x.data) :
    '<' ∉ (lowerStr (afterLastDotS x)).data := by
  intro hmem
  obtain ⟨c, hc, hlow⟩ := List.mem_map.mp hmem
  have hc2 : c ∈ x.data := by
    have h1 : c ∈ (afterLastDotS x).data := hc
    have h2 : c ∈ x.data.reverse.takeWhile (fun ch => ch ≠ '.') := by
      simpa [afterLastDotS, afterLastDotL] using h1
    exact List.mem_reverse.mp ((List.takeWhile_sublist _).mem h2)
  exact h (toLower_eq_angle c hlow ▸ hc2)

theorem findOpenTag_none : ∀ l : List Char, '<' ∉ l → findOpenTag l = none
  | [], _ => rfl
  | c :: cs, h => by
    have hc : c ≠ '<' := fun hh => h (hh ▸ List.mem_cons_self c cs)
    rw [findOpenTag, if_neg hc]
    exact findOpenTag_none cs (fun hh => h (List.mem_cons_of_mem c hh))

theorem htmlHeuristic_false (s : String) (h : '<' ∉ s.data) :
    htmlHeuristic s = false := by
  unfold htmlHeuristic
  rw [findOpenTag_none s.data h]

theorem angle_not_in_joinStrs (sep : String) (l : List String)
    (hsep : '<' ∉ sep.data) (h : ∀ x ∈ l, '<' ∉ x.data) :
    '<' ∉ (joinStrs sep l).data := by
  show '<' ∉ joinWith sep.data (l.map String.data)
  apply not_mem_joinWith '<' sep.data (l.map String.data) hsep
  intro p hp
  obtain ⟨s, hs, rfl⟩ := List.mem_map.mp hp
  exact h s hs

/-- C6: for a non-empty formats list, the CSV writer reduces each entry to
its lowercased extension — `rpartition('.')[2].lower()`, the substring after
the final dot — joined with ", ", while the XML writer emits one `format`
child per entry carrying the full path with OS separators replaced by `/`,
extensions untouched.  (The `<`-freedom hypothesis only rules out paths
that would trip the HTML heuristic.) -/
theorem formats_field_rendering (fm : String → FieldMeta) (sep : Char)
    (fields : List String) (r : Record) (xs ys : List String)
    (hx : ∀ x ∈ xs, '<' ∉ x.data)
    (hmem : "formats" ∈ fields)
    (hlook : r.lookup "formats" = some (Value.vlist ys))
    (hne : ys ≠ []) :
    csvCellOfValue fm "formats" (Value.vlist xs)
      = .ok (csvQuote (joinStrs ", " (xs.map (fun f => lowerStr (afterLastDotS f)))))
    ∧ xmlFormats sep fields r
      = .ok [XmlNode.elem "formats" []
          (ys.map (fun f => XmlNode.elem "format" [] [XmlNode.text (replaceSep sep f)]))] := by
  constructor
  · show (do
      let t ← csvTransform fm "formats" (.vlist xs)
      Except.ok (csvQuote (htmlPass t).pyStr)) = _
    rw [show csvTransform fm "formats" (.vlist xs)
        = .ok (.vstr (joinStrs ", " (xs.map (fun f => lowerStr (afterLastDotS f)))))
        from rfl]
    show Except.ok (csvQuote (htmlPass (.vstr _)).pyStr) = _
    rw [show ∀ t : String, htmlPass (.vstr t)
        = if htmlHeuristic t = true then Value.vstr (html2textModel t) else Value.vstr t
        from fun t => rfl]
    rw [if_neg (by
      rw [htmlHeuristic_false _ (angle_not_in_joinStrs ", " _ (by decide) (by
        intro x hxm
        obtain ⟨x0, hx0, rfl⟩ := List.mem_map.mp hxm
        exact angle_not_in_ext x0 (hx x0 hx0)))]
      simp)]
    rfl
  · unfold xmlFormats
    rw [if_pos hmem]
    show (do
      let v ← lookupE r "formats"
      if v.truthy = true then do
        let xs2 ← iterSeq v
        Except.ok [XmlNode.elem "formats" []
          (xs2.map (fun f => XmlNode.elem "format" [] [XmlNode.text (replaceSep sep f)]))]
      else Except.ok []) = _
    rw [show lookupE r "formats" = .ok (Value.vlist ys) by unfold lookupE; rw [hlook]]
    show (if (Value.vlist ys).truthy = true then do
        let xs2 ← iterSeq (Value.vlist ys)
        Except.ok [XmlNode.elem "formats" []
          (xs2.map (fun f => XmlNode.elem "format" [] [XmlNode.text (replaceSep sep f)]))]
      else Except.ok []) = _
    rw [if_pos (by
      show (!ys.isEmpty) = true
      cases ys with
      | nil => exact absurd rfl hne
      | cons a l => rfl)]
    rfl

/-- C6 (witness): the spec's example, `["/lib/book.EPUB", "/lib/book.mobi"]`:
CSV cell "epub, mobi"; XML keeps both full paths. -/
theorem formats_field_rendering_witness :
    (csvCellOfValue fm0 "formats" (Value.vlist ["/lib/book.EPUB", "/lib/book.mobi"])
      = .ok (csvQuote (joinStrs ", " (["/lib/book.EPUB", "/lib/book.mobi"].map
          (fun f => lowerStr (afterLastDotS f))))))
    ∧ (xmlFormats '/' ["formats"]
        [("formats", Value.vlist ["/lib/book.EPUB", "/lib/book.mobi"])]
      = .ok [XmlNode.elem "formats" []
          (["/lib/book.EPUB", "/lib/book.mobi"].map
            (fun f => XmlNode.elem "format" [] [XmlNode.text (replaceSep '/' f)]))])
    ∧ joinStrs ", " (["/lib/book.EPUB", "/lib/book.mobi"].map
        (fun f => lowerStr (afterLastDotS f))) = "epub, mobi" := by
  have h := formats_field_rendering fm0 '/' ["formats"]
    [("formats", Value.vlist ["/lib/book.EPUB", "/lib/book.mobi"])]
    ["/lib/book.EPUB", "/lib/book.mobi"] ["/lib/book.EPUB", "/lib/book.mobi"]
    (by decide) (by decide) rfl (by decide)
  exact ⟨h.1, h.2, by decide⟩

-- C3: custom-field access.

/-- A database accessor holding a list value for the custom column `#x`. -/
def dbList : Db := ⟨fun _ f => if f = "#x" then Value.vlist ["a", "b"] else Value.vnone⟩

/-- Field metadata whose display hint marks every column as name-valued. -/
def fmN : String → FieldMeta := fun _ => ⟨none, true⟩

/-- C3 (counterexample): the XML writer does not join a list value fetched
for a custom field — it stringifies it with Python `str`, so the element
text for `['a', 'b']` is "['a', 'b']", neither "a & b" nor "a, b". -/
theorem xml_custom_list_counterexample :
    xmlCustoms dbList ["#x"] [("id", Value.vint 1)]
      = .ok [XmlNode.elem "_x" [] [XmlNode.text "['a', 'b']"]]
    ∧ ("['a', 'b']" : String) ≠ joinStrs " & " ["a", "b"]
    ∧ ("['a', 'b']" : String) ≠ joinStrs ", " ["a", "b"] :=
  ⟨rfl, by decide, by decide⟩

/-- C3 (amended): both writers fetch a custom field through the generic
accessor `db.get_field`, never by direct record indexing (adding a binding
for the field name to the record itself changes nothing); the CSV writer
joins a fetched list with " & " when the field's is_names hint is set and
with ", " otherwise; the XML writer instead stringifies the fetched value
(`str(val)`), so a list is rendered as its Python repr, not joined. -/
theorem custom_field_access_amended (db : Db) (fm : String → FieldMeta)
    (lib : String) (r : Record) (f : String) (w idv : Value) (xs : List String)
    (hc : isCustom f = true)
    (hid : r.lookup "id" = some idv)
    (hgf : db.getField idv f = Value.vlist xs) :
    csvResolve db fm lib ((f, w) :: r) f = csvResolve db fm lib r f
    ∧ csvResolve db fm lib r f
        = .ok (.vstr (joinStrs (if (fm f).is_names then " & " else ", ") xs))
    ∧ xmlCustoms db [f] r
        = .ok [XmlNode.elem (hashToUnderscore f) []
            [XmlNode.text (valToText (db.getField idv f))]] := by
  have hhash : f.data.head? = some '#' := by
    unfold isCustom at hc
    exact eq_of_beq hc
  have hne : ("id" : String) ≠ f := by
    intro he
    rw [← he] at hhash
    cases hhash
  have hlookid : ∀ v : Value, List.lookup "id" ((f, w) :: r) = List.lookup "id" r := by
    intro _
    show (match "id" == f with
      | true => some w
      | false => List.lookup "id" r) = List.lookup "id" r
    rw [show ("id" == f) = false from beq_eq_false_iff_ne.mpr hne]
  refine ⟨?_, ?_, ?_⟩
  · unfold csvResolve
    rw [if_pos hc, if_pos hc]
    unfold lookupE
    rw [show List.lookup "id" ((f, w) :: r) = List.lookup "id" r from hlookid w]
  · unfold csvResolve
    rw [if_pos hc]
    unfold lookupE
    rw [hid]
    show (match db.getField idv f with
      | Value.vlist xs =>
        Except.ok (Value.vstr (joinStrs (if (fm f).is_names then " & " else ", ") xs))
      | v => Except.ok v) = _
    rw [hgf]
  · unfold xmlCustoms
    rw [show List.filter (fun x => isCustom x) [f] = [f] by
      simp [List.filter, hc]]
    have hl : lookupE r "id" = .ok idv := by unfold lookupE; rw [hid]
    simp only [mapME, hl, Bind.bind, Except.bind]

/-- C3 (witness): the amended theorem at a concrete custom column, under
both settings of the is_names hint. -/
theorem custom_field_access_amended_witness :
    (csvResolve dbList fm0 "L" [("#x", Value.vstr "direct"), ("id", Value.vint 1)] "#x"
      = csvResolve dbList fm0 "L" [("id", Value.vint 1)] "#x")
    ∧ csvResolve dbList fm0 "L" [("id", Value.vint 1)] "#x"
        = .ok (.vstr (joinStrs (if (fm0 "#x").is_names then " & " else ", ") ["a", "b"]))
    ∧ csvResolve dbList fmN "L" [("id", Value.vint 1)] "#x"
        = .ok (.vstr (joinStrs (if (fmN "#x").is_names then " & " else ", ") ["a", "b"]))
    ∧ xmlCustoms dbList ["#x"] [("id", Value.vint 1)]
        = .ok [XmlNode.elem (hashToUnderscore "#x") []
            [XmlNode.text (valToText (dbList.getField (Value.vint 1) "#x"))]]
    ∧ joinStrs ", " ["a", "b"] = "a, b"
    ∧ joinStrs " & " ["a", "b"] = "a & b" := by
  have h1 := custom_field_access_amended dbList fm0 "L" [("id", Value.vint 1)] "#x"
    (Value.vstr "direct") (Value.vint 1) ["a", "b"] (by decide) rfl rfl
  have h2 := custom_field_access_amended dbList fmN "L" [("id", Value.vint 1)] "#x"
    (Value.vstr "direct") (Value.vint 1) ["a", "b"] (by decide) rfl rfl
  exact ⟨h1.1, h1.2.1, h2.2.1, h1.2.2, by decide, by decide⟩

/-- C9: the XML branch opens the destination only after the whole tree is
built — on any record-conversion error (re-raised wrapped with the record's
title) the run ends with the destination completely unwritten and only on
full success is the serialized document written — while the CSV branch
writes incrementally, so a mid-loop failure leaves the header and every
earlier row in the file (shown on a concrete failing input). -/
theorem xml_write_after_build
    (sep : Char) (ct : Option String) (db : Db) (fm : String → FieldMeta)
    (lib : String) (fields : List String) (data : List Record) (e1 : String)
    (sep2 : Char) (ct2 : Option String) (db2 : Db) (fm2 : String → FieldMeta)
    (lib2 : String) (fields2 : List String) (data2 : List Record) (recs2 : List XmlNode)
    (db3 : Db) (fm3 : String → FieldMeta) (lib3 : String) (sep3 : Char)
    (fields3 : List String) (r3 : Record) (t3 e3 : String)
    (h1 : mapME (xmlRecordWrapped db fm lib sep fields) data = .error e1)
    (h2 : mapME (xmlRecordWrapped db2 fm2 lib2 sep2 fields2) data2 = .ok recs2)
    (h3 : r3.lookup "title" = some (Value.vstr t3))
    (h4 : xmlRecordChildren db3 fm3 lib3 sep3 fields3 r3 = .error e3) :
    xmlRun sep ct db fm lib fields data = ⟨none, some e1⟩
    ∧ xmlRun sep2 ct2 db2 fm2 lib2 fields2 data2
        = ⟨some (serializeXml (XmlNode.elem "calibredb" (rootAttrs ct2) recs2)), none⟩
    ∧ xmlRecordWrapped db3 fm3 lib3 sep3 fields3 r3
        = .error ("Failed to convert " ++ t3 ++ " to XML with error: " ++ e3)
    ∧ (csvRun db0 fm0 "L" ["title"] [[("title", Value.vstr "A")], []]).written
        = some ("﻿" ++ "title" ++ "\n" ++ "\"A\"" ++ "\n")
    ∧ (csvRun db0 fm0 "L" ["title"] [[("title", Value.vstr "A")], []]).err
        = some "KeyError: title" := by
  refine ⟨?_, ?_, ?_, by decide, by decide⟩
  · unfold xmlRun
    rw [h1]
  · unfold xmlRun
    rw [h2]
  · unfold xmlRecordWrapped
    rw [h4, h3]
    rfl

/-- C9 (witness): the theorem at concrete inputs — a failing record list (an
empty record), an empty success list, and a record whose sort key is
missing. -/
theorem xml_write_after_build_witness :
    xmlRun '/' none db0 fm0 "L" ["title"] [[]] = ⟨none, some "KeyError: title"⟩
    ∧ xmlRun '/' (some "T") db0 fm0 "L" ["title"] []
        = ⟨some (serializeXml (XmlNode.elem "calibredb" (rootAttrs (some "T")) [])), none⟩
    ∧ xmlRecordWrapped db0 fm0 "L" '/' ["title"] [("title", Value.vstr "T")]
        = .error ("Failed to convert " ++ "T" ++ " to XML with error: " ++ "KeyError: sort")
    ∧ (csvRun db0 fm0 "L" ["title"] [[("title", Value.vstr "A")], []]).written
        = some ("﻿" ++ "title" ++ "\n" ++ "\"A\"" ++ "\n")
    ∧ (csvRun db0 fm0 "L" ["title"] [[("title", Value.vstr "A")], []]).err
        = some "KeyError: title" :=
  xml_write_after_build '/' none db0 fm0 "L" ["title"] [[]] "KeyError: title"
    '/' (some "T") db0 fm0 "L" ["title"] [] []
    db0 fm0 "L" '/' ["title"] [("title", Value.vstr "T")] "T" "KeyError: sort"
    rfl rfl rfl rfl

-- C8: structural order of the XML record element.

/-- A database accessor that echoes the requested field name. -/
def dbEcho : Db := ⟨fun _ f => Value.vstr f⟩

/-- The tag of the first child in a built child list. -/
def headTagOfResult (x : Except String (List XmlNode)) : Option String :=
  match x with
  | .ok (c :: _) => some c.topTag
  | _ => none

/-- C8 (counterexample): with two custom fields, permuting the field list
permutes the custom elements — the record element's structure is not
independent of the field list's order. -/
theorem xml_field_order_counterexample :
    xmlRecordChildren dbEcho fm0 "L" '/' ["#a", "#b"] [("id", Value.vint 1)]
      ≠ xmlRecordChildren dbEcho fm0 "L" '/' ["#b", "#a"] [("id", Value.vint 1)] := by
  intro h
  have h2 := congrArg headTagOfResult h
  rw [show headTagOfResult (xmlRecordChildren dbEcho fm0 "L" '/' ["#a", "#b"]
      [("id", Value.vint 1)]) = some "_a" from rfl] at h2
  rw [show headTagOfResult (xmlRecordChildren dbEcho fm0 "L" '/' ["#b", "#a"]
      [("id", Value.vint 1)]) = some "_b" from rfl] at h2
  exact (by decide : some "_a" ≠ some "_b") h2

/-- C8 (amended): the record element's children follow the fixed structural
order (custom fields, fixed scalars, title, authors, timestamp/pubdate,
tags, comments, series, languages, cover, formats, library_name) and depend
on the field list only through (a) the subsequence of custom fields in
field-list order and (b) membership of each non-custom name: two field
lists with the same custom subsequence and the same members build identical
record elements; order among custom fields, however, follows the field
list. -/
theorem xml_structural_order_amended (db : Db) (fm : String → FieldMeta)
    (lib : String) (sep : Char) (fields1 fields2 : List String) (r : Record)
    (hcust : fields1.filter (fun f => isCustom f) = fields2.filter (fun f => isCustom f))
    (hmem : ∀ f, f ∈ fields1 ↔ f ∈ fields2) :
    xmlRecordChildren db fm lib sep fields1 r
      = xmlRecordChildren db fm lib sep fields2 r := by
  have hcs : xmlCustoms db fields1 r = xmlCustoms db fields2 r := by
    unfold xmlCustoms
    rw [hcust]
  have hsc : xmlScalars fm fields1 r = xmlScalars fm fields2 r := by
    unfold xmlScalars
    exact congrArg joinME (mapME_congr _ _ scalarNames (fun f _ => by
      unfold xmlScalarOne
      exact if_congr (hmem f) rfl rfl))
  have hti : xmlTitle fields1 r = xmlTitle fields2 r := by
    unfold xmlTitle
    exact if_congr (hmem "title") rfl rfl
  have hau : xmlAuthors fields1 r = xmlAuthors fields2 r := by
    unfold xmlAuthors
    exact if_congr (hmem "authors") rfl rfl
  have hdt : xmlDates fields1 r = xmlDates fields2 r := by
    unfold xmlDates
    exact congrArg joinME (mapME_congr _ _ ["timestamp", "pubdate"] (fun f _ => by
      unfold xmlDateOne
      exact if_congr (hmem f) rfl rfl))
  have htg : xmlTags fields1 r = xmlTags fields2 r := by
    unfold xmlTags
    exact if_congr (hmem "tags") rfl rfl
  have hcm : xmlComments fields1 r = xmlComments fields2 r := by
    unfold xmlComments
    exact if_congr (hmem "comments") rfl rfl
  have hse : xmlSeries fields1 r = xmlSeries fields2 r := by
    unfold xmlSeries
    exact if_congr (hmem "series") rfl rfl
  have hlg : xmlLanguages fields1 r = xmlLanguages fields2 r := by
    unfold xmlLanguages
    exact if_congr (hmem "languages") rfl rfl
  have hcv : xmlCover sep fields1 r = xmlCover sep fields2 r := by
    unfold xmlCover
    exact if_congr (hmem "cover") rfl rfl
  have hfo : xmlFormats sep fields1 r = xmlFormats sep fields2 r := by
    unfold xmlFormats
    exact if_congr (hmem "formats") rfl rfl
  have hln : xmlLibraryName lib fields1 = xmlLibraryName lib fields2 := by
    unfold xmlLibraryName
    exact if_congr (hmem "library_name") rfl rfl
  unfold xmlRecordChildren
  rw [hcs, hsc, hti, hau, hdt, htg, hcm, hse, hlg, hcv, hfo, hln]

/-- C8 (witness): two permuted field lists with the same (empty) custom
subsequence and the same members build the same record element. -/
theorem xml_structural_order_amended_witness :
    xmlRecordChildren db0 fm0 "L" '/' ["id", "title"]
        [("id", Value.vint 3), ("title", Value.vstr "T"), ("sort", Value.vstr "T")]
      = xmlRecordChildren db0 fm0 "L" '/' ["title", "id"]
        [("id", Value.vint 3), ("title", Value.vstr "T"), ("sort", Value.vstr "T")] :=
  xml_structural_order_amended db0 fm0 "L" '/' ["id", "title"] ["title", "id"]
    [("id", Value.vint 3), ("title", Value.vstr "T"), ("sort", Value.vstr "T")]
    (by decide)
    (fun f => by
      simp only [List.mem_cons, List.not_mem_nil, or_false]
      exact Or.comm)

-- C2: which children can appear in a record element.

theorem joinME_ok (x : Except String (List (List XmlNode))) (l : List XmlNode)
    (h : joinME x = .ok l) : ∃ ls, x = .ok ls ∧ l = ls.flatten := by
  cases x with
  | ok ls =>
    refine ⟨ls, rfl, ?_⟩
    simp only [joinME, Bind.bind, Except.bind] at h
    cases h
    rfl
  | error e => simp [joinME, Bind.bind, Except.bind] at h

theorem lookupE_ok (r : Record) (k : String) (v : Value)
    (h : lookupE r k = .ok v) : r.lookup k = some v := by
  unfold lookupE at h
  cases hl : r.lookup k with
  | some w =>
    rw [hl] at h
    cases h
    rfl
  | none =>
    rw [hl] at h
    cases h

theorem mem_xmlCustoms (db : Db) (fields : List String) (r : Record)
    (l : List XmlNode) (c : XmlNode)
    (h : xmlCustoms db fields r = .ok l) (hc : c ∈ l) :
    ∃ f0, isCustom f0 = true ∧ c.topTag = hashToUnderscore f0 := by
  obtain ⟨a, ha, hfa⟩ := mapME_ok_mem _ _ l h c hc
  have hcu : isCustom a = true := (List.mem_filter.mp ha).2
  obtain ⟨idv, _, h2⟩ := bindE_ok _ _ _ hfa
  cases h2
  exact ⟨a, hcu, rfl⟩

theorem mem_xmlScalarOne (fm : String → FieldMeta) (fields : List String)
    (r : Record) (f : String) (l : List XmlNode) (c : XmlNode)
    (h : xmlScalarOne fm fields r f = .ok l) (hc : c ∈ l) :
    c.topTag = f ∧ ∃ v, r.lookup f = some v ∧ v.truthy = true := by
  unfold xmlScalarOne at h
  by_cases hmem : f ∈ fields
  · rw [if_pos hmem] at h
    obtain ⟨val, hval, h2⟩ := bindE_ok _ _ _ h
    by_cases ht : val.truthy = true
    · rw [if_pos ht] at h2
      obtain ⟨s, _, h3⟩ := bindE_ok _ _ _ h2
      cases h3
      rw [List.mem_singleton.mp hc]
      exact ⟨rfl, val, lookupE_ok r f val hval, ht⟩
    · rw [if_neg ht] at h2
      cases h2
      cases hc
  · rw [if_neg hmem] at h
    cases h
    cases hc

theorem mem_xmlScalars (fm : String → FieldMeta) (fields : List String)
    (r : Record) (l : List XmlNode) (c : XmlNode)
    (h : xmlScalars fm fields r = .ok l) (hc : c ∈ l) :
    ∃ f v, c.topTag = f ∧ r.lookup f = some v ∧ v.truthy = true := by
  obtain ⟨ls, hls, rfl⟩ := joinME_ok _ _ h
  obtain ⟨li, hli, hcli⟩ := List.mem_flatten.mp hc
  obtain ⟨f, _, hfa⟩ := mapME_ok_mem _ _ ls hls li hli
  obtain ⟨ht, v, hv, htr⟩ := mem_xmlScalarOne fm fields r f li c hfa hcli
  exact ⟨f, v, ht, hv, htr⟩

theorem mem_xmlTitle (fields : List String) (r : Record) (l : List XmlNode)
    (c : XmlNode) (h : xmlTitle fields r = .ok l) (hc : c ∈ l) :
    c.topTag = "title" := by
  unfold xmlTitle at h
  by_cases hmem : "title" ∈ fields
  · rw [if_pos hmem] at h
    obtain ⟨tv, _, h2⟩ := bindE_ok _ _ _ h
    obtain ⟨ts, _, h3⟩ := bindE_ok _ _ _ h2
    obtain ⟨sv, _, h4⟩ := bindE_ok _ _ _ h3
    obtain ⟨ss, _, h5⟩ := bindE_ok _ _ _ h4
    cases h5
    rw [List.mem_singleton.mp hc]
    rfl
  · rw [if_neg hmem] at h
    cases h
    cases hc

theorem mem_xmlAuthors (fields : List String) (r : Record) (l : List XmlNode)
    (c : XmlNode) (h : xmlAuthors fields r = .ok l) (hc : c ∈ l) :
    c.topTag = "authors" := by
  unfold xmlAuthors at h
  by_cases hmem : "authors" ∈ fields
  · rw [if_pos hmem] at h
    obtain ⟨sv, _, h2⟩ := bindE_ok _ _ _ h
    obtain ⟨ss, _, h3⟩ := bindE_ok _ _ _ h2
    obtain ⟨av, _, h4⟩ := bindE_ok _ _ _ h3
    obtain ⟨xs, _, h5⟩ := bindE_ok _ _ _ h4
    cases h5
    rw [List.mem_singleton.mp hc]
    rfl
  · rw [if_neg hmem] at h
    cases h
    cases hc

theorem mem_xmlDateOne (fields : List String) (r : Record) (f : String)
    (l : List XmlNode) (c : XmlNode)
    (h : xmlDateOne fields r f = .ok l) (hc : c ∈ l) : c.topTag = f := by
  unfold xmlDateOne at h
  by_cases hmem : f ∈ fields
  · rw [if_pos hmem] at h
    obtain ⟨v, _, h2⟩ := bindE_ok _ _ _ h
    cases v with
    | vdate s =>
      cases h2
      rw [List.mem_singleton.mp hc]
      rfl
    | vnone => cases h2
    | vstr s => cases h2
    | vint n => cases h2
    | vrat q => cases h2
    | vlist xs => cases h2
    | vbool b => cases h2
  · rw [if_neg hmem] at h
    cases h
    cases hc

theorem mem_xmlDates (fields : List String) (r : Record) (l : List XmlNode)
    (c : XmlNode) (h : xmlDates fields r = .ok l) (hc : c ∈ l) :
    c.topTag = "timestamp" ∨ c.topTag = "pubdate" := by
  obtain ⟨ls, hls, rfl⟩ := joinME_ok _ _ h
  obtain ⟨li, hli, hcli⟩ := List.mem_flatten.mp hc
  obtain ⟨f, hf, hfa⟩ := mapME_ok_mem _ _ ls hls li hli
  have := mem_xmlDateOne fields r f li c hfa hcli
  rcases List.mem_cons.mp hf with rfl | hf2
  · exact Or.inl this
  · rcases List.mem_cons.mp hf2 with rfl | hf3
    · exact Or.inr this
    · cases hf3

theorem mem_xmlTags (fields : List String) (r : Record) (l : List XmlNode)
    (c : XmlNode) (h : xmlTags fields r = .ok l) (hc : c ∈ l) :
    c.topTag = "tags" ∧ ∃ v, r.lookup "tags" = some v ∧ v.truthy = true := by
  unfold xmlTags at h
  by_cases hmem : "tags" ∈ fields
  · rw [if_pos hmem] at h
    obtain ⟨val, hval, h2⟩ := bindE_ok _ _ _ h
    by_cases ht : val.truthy = true
    · rw [if_pos ht] at h2
      obtain ⟨xs, _, h3⟩ := bindE_ok _ _ _ h2
      cases h3
      rw [List.mem_singleton.mp hc]
      exact ⟨rfl, val, lookupE_ok r "tags" val hval, ht⟩
    · rw [if_neg ht] at h2
      cases h2
      cases hc
  · rw [if_neg hmem] at h
    cases h
    cases hc

theorem mem_xmlComments (fields : List String) (r : Record) (l : List XmlNode)
    (c : XmlNode) (h : xmlComments fields r = .ok l) (hc : c ∈ l) :
    c.topTag = "comments" ∧ ∃ v, r.lookup "comments" = some v ∧ v.truthy = true := by
  unfold xmlComments at h
  by_cases hmem : "comments" ∈ fields
  · rw [if_pos hmem] at h
    obtain ⟨val, hval, h2⟩ := bindE_ok _ _ _ h
    by_cases ht : val.truthy = true
    · rw [if_pos ht] at h2
      obtain ⟨s, _, h3⟩ := bindE_ok _ _ _ h2
      cases h3
      rw [List.mem_singleton.mp hc]
      exact ⟨rfl, val, lookupE_ok r "comments" val hval, ht⟩
    · rw [if_neg ht] at h2
      cases h2
      cases hc
  · rw [if_neg hmem] at h
    cases h
    cases hc

theorem mem_xmlSeries (fields : List String) (r : Record) (l : List XmlNode)
    (c : XmlNode) (h : xmlSeries fields r = .ok l) (hc : c ∈ l) :
    c.topTag = "series" ∧ ∃ v, r.lookup "series" = some v ∧ v.truthy = true := by
  unfold xmlSeries at h
  by_cases hmem : "series" ∈ fields
  · rw [if_pos hmem] at h
    obtain ⟨val, hval, h2⟩ := bindE_ok _ _ _ h
    by_cases ht : val.truthy = true
    · rw [if_pos ht] at h2
      obtain ⟨s, _, h3⟩ := bindE_ok _ _ _ h2
      obtain ⟨si, _, h4⟩ := bindE_ok _ _ _ h3
      cases h4
      rw [List.mem_singleton.mp hc]
      exact ⟨rfl, val, lookupE_ok r "series" val hval, ht⟩
    · rw [if_neg ht] at h2
      cases h2
      cases hc
  · rw [if_neg hmem] at h
    cases h
    cases hc

theorem mem_xmlLanguages (fields : List String) (r : Record) (l : List XmlNode)
    (c : XmlNode) (h : xmlLanguages fields r = .ok l) (hc : c ∈ l) :
    c.topTag = "languages" ∧ ∃ v, r.lookup "languages" = some v ∧ v.truthy = true := by
  unfold xmlLanguages at h
  by_cases hmem : "languages" ∈ fields
  · rw [if_pos hmem] at h
    obtain ⟨val, hval, h2⟩ := bindE_ok _ _ _ h
    by_cases ht : val.truthy = true
    · rw [if_pos ht] at h2
      obtain ⟨s, _, h3⟩ := bindE_ok _ _ _ h2
      cases h3
      rw [List.mem_singleton.mp hc]
      exact ⟨rfl, val, lookupE_ok r "languages" val hval, ht⟩
    · rw [if_neg ht] at h2
      cases h2
      cases hc
  · rw [if_neg hmem] at h
    cases h
    cases hc

theorem mem_xmlCover (sep : Char) (fields : List String) (r : Record)
    (l : List XmlNode) (c : XmlNode)
    (h : xmlCover sep fields r = .ok l) (hc : c ∈ l) :
    c.topTag = "cover" ∧ ∃ v, r.lookup "cover" = some v ∧ v.truthy = true := by
  unfold xmlCover at h
  by_cases hmem : "cover" ∈ fields
  · rw [if_pos hmem] at h
    obtain ⟨val, hval, h2⟩ := bindE_ok _ _ _ h
    by_cases ht : val.truthy = true
    · rw [if_pos ht] at h2
      obtain ⟨s, _, h3⟩ := bindE_ok _ _ _ h2
      cases h3
      rw [List.mem_singleton.mp hc]
      exact ⟨rfl, val, lookupE_ok r "cover" val hval, ht⟩
    · rw [if_neg ht] at h2
      cases h2
      cases hc
  · rw [if_neg hmem] at h
    cases h
    cases hc

theorem mem_xmlFormats (sep : Char) (fields : List String) (r : Record)
    (l : List XmlNode) (c : XmlNode)
    (h : xmlFormats sep fields r = .ok l) (hc : c ∈ l) :
    c.topTag = "formats" ∧ ∃ v, r.lookup "formats" = some v ∧ v.truthy = true := by
  unfold xmlFormats at h
  by_cases hmem : "formats" ∈ fields
  · rw [if_pos hmem] at h
    obtain ⟨val, hval, h2⟩ := bindE_ok _ _ _ h
    by_cases ht : val.truthy = true
    · rw [if_pos ht] at h2
      obtain ⟨xs, _, h3⟩ := bindE_ok _ _ _ h2
      cases h3
      rw [List.mem_singleton.mp hc]
      exact ⟨rfl, val, lookupE_ok r "formats" val hval, ht⟩
    · rw [if_neg ht] at h2
      cases h2
      cases hc
  · rw [if_neg hmem] at h
    cases h
    cases hc

theorem mem_xmlLibraryName (lib : String) (fields : List String)
    (l : List XmlNode) (c : XmlNode)
    (h : xmlLibraryName lib fields = .ok l) (hc : c ∈ l) :
    c.topTag = "library_name" := by
  unfold xmlLibraryName at h
  by_cases hmem : "library_name" ∈ fields
  · rw [if_pos hmem] at h
    cases h
    rw [List.mem_singleton.mp hc]
    rfl
  · rw [if_neg hmem] at h
    cases h
    cases hc

/-- The fields whose XML emission is guarded by the value's truthiness:
the fixed scalars of line 191-192 plus the container/leaf fields of lines
219-242. -/
def guardedFields : List String :=
  scalarNames ++ ["tags", "comments", "series", "languages", "cover", "formats"]

theorem isCustom_hashHead (f : String) (h : isCustom f = true) :
    (hashToUnderscore f).data.head? = some '_' := by
  unfold isCustom at h
  have hh : f.data.head? = some '#' := eq_of_beq h
  cases hd : f.data with
  | nil =>
    rw [hd] at hh
    cases hh
  | cons c cs =>
    rw [hd] at hh
    have hc : c = '#' := by
      injection hh
    show (f.data.map (fun c => if c = '#' then '_' else c)).head? = some '_'
    rw [hd]
    simp [hc]

/-- C2 (amended): for the truthiness-guarded fields — id, uuid, publisher,
rating, size, isbn, ondevice, identifiers, tags, comments, series,
languages, cover, formats — a falsy value yields no XML element with that
field's tag inside the record element (title, authors, timestamp, pubdate,
library_name and custom fields are emitted whenever listed, regardless of
value, which is the corrected part).  The CSV writer emits an explicit
empty quoted cell for a None value of any field, for an empty sequence of
the sequence-joining fields, and for an empty string of any non-datetime
field (numeric zero and False instead render as "0"/"False"). -/
theorem falsy_field_output_amended
    (db : Db) (fm : String → FieldMeta) (lib : String) (sep : Char)
    (fields : List String) (r : Record) (f : String) (v : Value) (ch : List XmlNode)
    (fmb : String → FieldMeta) (fb : String)
    (fmc : String → FieldMeta) (fc : String)
    (fmd : String → FieldMeta) (fd : String)
    (hg : f ∈ guardedFields)
    (hlook : r.lookup f = some v)
    (hfalsy : v.truthy = false)
    (hch : xmlRecordChildren db fm lib sep fields r = .ok ch)
    (hfc : fc ∈ ["formats", "authors", "tags"])
    (hfd : (fmd fd).datatype ≠ some "datetime") :
    (∀ c ∈ ch, c.topTag ≠ f)
    ∧ csvCellOfValue fmb fb Value.vnone = .ok (String.mk ['"', '"'])
    ∧ csvCellOfValue fmc fc (Value.vlist []) = .ok (String.mk ['"', '"'])
    ∧ csvCellOfValue fmd fd (Value.vstr "") = .ok (String.mk ['"', '"']) := by
  have hhead : f.data.head? ≠ some '_' := by
    have H : ∀ x ∈ guardedFields, x.data.head? ≠ some '_' := by decide
    exact H f hg
  have hfixed : f ≠ "title" ∧ f ≠ "authors" ∧ f ≠ "timestamp" ∧ f ≠ "pubdate"
      ∧ f ≠ "library_name" := by
    have H : ∀ x ∈ guardedFields, x ≠ "title" ∧ x ≠ "authors" ∧ x ≠ "timestamp"
        ∧ x ≠ "pubdate" ∧ x ≠ "library_name" := by decide
    exact H f hg
  refine ⟨?_, rfl, ?_, ?_⟩
  · unfold xmlRecordChildren at hch
    obtain ⟨cs, hcs, hch⟩ := bindE_ok _ _ _ hch
    obtain ⟨sc, hsc, hch⟩ := bindE_ok _ _ _ hch
    obtain ⟨ti, hti, hch⟩ := bindE_ok _ _ _ hch
    obtain ⟨au, hau, hch⟩ := bindE_ok _ _ _ hch
    obtain ⟨dt, hdt, hch⟩ := bindE_ok _ _ _ hch
    obtain ⟨tg, htg, hch⟩ := bindE_ok _ _ _ hch
    obtain ⟨cm, hcm, hch⟩ := bindE_ok _ _ _ hch
    obtain ⟨se, hse, hch⟩ := bindE_ok _ _ _ hch
    obtain ⟨lg, hlg, hch⟩ := bindE_ok _ _ _ hch
    obtain ⟨cv, hcv, hch⟩ := bindE_ok _ _ _ hch
    obtain ⟨fo, hfo, hch⟩ := bindE_ok _ _ _ hch
    obtain ⟨ln, hln, hch⟩ := bindE_ok _ _ _ hch
    have hcheq : ch = cs ++ sc ++ ti ++ au ++ dt ++ tg ++ cm ++ se ++ lg ++ cv
        ++ fo ++ ln := (Except.ok.inj hch).symm
    have contra : ∀ (name : String) (w : Value) (c : XmlNode), c.topTag = name →
        r.lookup name = some w → w.truthy = true → c.topTag ≠ f := by
      intro name w c htag hw hwt heq
      rw [htag] at heq
      subst heq
      rw [hlook] at hw
      injection hw with hw2
      rw [← hw2] at hwt
      rw [hfalsy] at hwt
      cases hwt
    intro c hc
    rw [hcheq] at hc
    rcases List.mem_append.mp hc with hc | hmem
    swap
    · rw [mem_xmlLibraryName lib fields ln c hln hmem]
      exact fun heq => hfixed.2.2.2.2 heq.symm
    rcases List.mem_append.mp hc with hc | hmem
    swap
    · obtain ⟨htag, w, hw, hwt⟩ := mem_xmlFormats sep fields r fo c hfo hmem
      exact contra "formats" w c htag hw hwt
    rcases List.mem_append.mp hc with hc | hmem
    swap
    · obtain ⟨htag, w, hw, hwt⟩ := mem_xmlCover sep fields r cv c hcv hmem
      exact contra "cover" w c htag hw hwt
    rcases List.mem_append.mp hc with hc | hmem
    swap
    · obtain ⟨htag, w, hw, hwt⟩ := mem_xmlLanguages fields r lg c hlg hmem
      exact contra "languages" w c htag hw hwt
    rcases List.mem_append.mp hc with hc | hmem
    swap
    · obtain ⟨htag, w, hw, hwt⟩ := mem_xmlSeries fields r se c hse hmem
      exact contra "series" w c htag hw hwt
    rcases List.mem_append.mp hc with hc | hmem
    swap
    · obtain ⟨htag, w, hw, hwt⟩ := mem_xmlComments fields r cm c hcm hmem
      exact contra "comments" w c htag hw hwt
    rcases List.mem_append.mp hc with hc | hmem
    swap
    · obtain ⟨htag, w, hw, hwt⟩ := mem_xmlTags fields r tg c htg hmem
      exact contra "tags" w c htag hw hwt
    rcases List.mem_append.mp hc with hc | hmem
    swap
    · rcases mem_xmlDates fields r dt c hdt hmem with htag | htag
      · rw [htag]
        exact fun heq => hfixed.2.2.1 heq.symm
      · rw [htag]
        exact fun heq => hfixed.2.2.2.1 heq.symm
    rcases List.mem_append.mp hc with hc | hmem
    swap
    · rw [mem_xmlAuthors fields r au c hau hmem]
      exact fun heq => hfixed.2.1 heq.symm
    rcases List.mem_append.mp hc with hc | hmem
    swap
    · rw [mem_xmlTitle fields r ti c hti hmem]
      exact fun heq => hfixed.1 heq.symm
    rcases List.mem_append.mp hc with hc | hmem
    swap
    · obtain ⟨f1, v1, htag, hv1, ht1⟩ := mem_xmlScalars fm fields r sc c hsc hmem
      exact contra f1 v1 c htag hv1 ht1
    · obtain ⟨f0, hf0, htag⟩ := mem_xmlCustoms db fields r cs c hcs hc
      intro heq
      apply hhead
      rw [← heq, htag]
      exact isCustom_hashHead f0 hf0
  · rcases List.mem_cons.mp hfc with rfl | hfc2
    · rfl
    rcases List.mem_cons.mp hfc2 with rfl | hfc3
    · rfl
    rcases List.mem_cons.mp hfc3 with rfl | hfc4
    · rfl
    cases hfc4
  · have htr : csvTransform fmd fd (.vstr "") = .ok (.vstr "") := by
      unfold csvTransform
      have hrate : ¬((fmd fd).datatype = some "rating"
          ∧ (Value.vstr "").truthy = true) := fun hx => absurd hx.2 (by decide)
      split_ifs <;> rfl
    show (do
      let t ← csvTransform fmd fd (.vstr "")
      Except.ok (csvQuote (htmlPass t).pyStr)) = _
    rw [htr]
    rfl

/-- C2 (counterexample): a record whose title is the empty string (falsy)
still gets a title element — an empty element — inside its record element,
so "the XML writer emits no element for a falsy field (never an empty
element)" fails for the title field. -/
theorem empty_title_element_counterexample :
    xmlRecordChildren db0 fm0 "L" '/' ["title"]
        [("title", Value.vstr ""), ("sort", Value.vstr "")]
      = .ok [XmlNode.elem "title" [("sort", "")] [XmlNode.text ""]]
    ∧ Value.truthy (Value.vstr "") = false :=
  ⟨rfl, rfl⟩

/-- C2 (witness): the amended theorem at concrete inputs — an empty tags
list yields no tags element and an empty CSV cell; None and the empty
string also yield empty CSV cells. -/
theorem falsy_field_output_amended_witness :
    (∀ c ∈ ([] : List XmlNode), c.topTag ≠ "tags")
    ∧ csvCellOfValue fm0 "publisher" Value.vnone = .ok (String.mk ['"', '"'])
    ∧ csvCellOfValue fm0 "tags" (Value.vlist []) = .ok (String.mk ['"', '"'])
    ∧ csvCellOfValue fm0 "title" (Value.vstr "") = .ok (String.mk ['"', '"']) :=
  falsy_field_output_amended db0 fm0 "L" '/' ["tags"] [("tags", Value.vlist [])]
    "tags" (Value.vlist []) [] fm0 "publisher" fm0 "tags" fm0 "title"
    (by decide) rfl rfl rfl (by decide) (by decide)
